import Mathlib

/-!
Shallow embedding of the CarbonChain frontend governance flows.

Each definition translates one function of the TypeScript source:
`SubmitClaim.tsx`, `AuthorityDashboard.tsx` (both dashboards),
`ClaimDetail.tsx`, `ClaimTimeline.tsx`, `AIVerdictCard.tsx` and the
`EvidenceUploader` component.  JavaScript numbers are modelled as
rationals, optional fields as `Option`, and the record of validation
errors as the list of keys written into it.
-/

namespace CarbonChain

/-- The `ClaimStatus` union of `types/index.ts`. -/
inductive ClaimStatus where
  | submitted
  | ai_analysis_pending
  | ai_analysis_in_progress
  | verified
  | ai_verified
  | ai_rejected
  | ai_analyzed
  | authority_reviewed
  | community_reviewed
  | approved
  | rejected
  | minted
deriving DecidableEq, Repr

/-- The carbon-impact range of the submission form (`FormData.carbon_impact_estimate`). -/
structure CarbonImpactEstimate where
  min_tonnes_co2e : ℚ
  max_tonnes_co2e : ℚ
deriving DecidableEq, Repr

/-- The error keys written by `SubmitClaim.validateStep` for `case 4`:
`carbon_impact` when `min_tonnes_co2e <= 0`, again `carbon_impact` when
`max_tonnes_co2e <= min_tonnes_co2e`, and `action_start_date` when the
start date is empty.  Writing the same key twice leaves one key in the
record, which only matters for emptiness here. -/
def validateStep4Errors (est : CarbonImpactEstimate) (action_start_date : String) :
    List String :=
  (if est.min_tonnes_co2e ≤ 0 then ["carbon_impact"] else []) ++
  (if est.max_tonnes_co2e ≤ est.min_tonnes_co2e then ["carbon_impact"] else []) ++
  (if action_start_date = "" then ["action_start_date"] else [])

/-- The result of `validateStep(4)`: `Object.keys(newErrors).length === 0`. -/
def validateStep4 (est : CarbonImpactEstimate) (action_start_date : String) : Bool :=
  validateStep4Errors est action_start_date = []

/-- Modelled from the spec: the payload invariant of §3,
"claimed max ≥ claimed min > 0". -/
def specCarbonRangeInvariant (est : CarbonImpactEstimate) : Prop :=
  0 < est.min_tonnes_co2e ∧ est.min_tonnes_co2e ≤ est.max_tonnes_co2e

/-- A claim as the dashboards consume it: the identity and the one field
their filters read. -/
structure Claim where
  id : Nat
  status : ClaimStatus
deriving DecidableEq, Repr

/-- The filter of `fetchClaims` in `AuthorityDashboard`: keep the claims with status
`ai_verified`, `ai_analyzed` or `verified`. -/
def authorityPendingClaims (allClaims : List Claim) : List Claim :=
  allClaims.filter fun c =>
    c.status = .ai_verified ∨ c.status = .ai_analyzed ∨ c.status = .verified

/-- The filter of `fetchClaims` in `CommunityReview`: keep only the `authority_reviewed` claims. -/
def communityReviewableClaims (allClaims : List Claim) : List Claim :=
  allClaims.filter fun c => c.status = .authority_reviewed

/-- The `verified_impact` record of a `VerificationResult`. -/
structure VerifiedImpact where
  min_tonnes_co2e : ℚ
  max_tonnes_co2e : ℚ
  point_estimate_tonnes_co2e : Option ℚ
deriving DecidableEq, Repr

/-- The amount computed by `ClaimDetail.handleMint`:
`verified_impact?.point_estimate_tonnes_co2e || (verified_impact ? (min + max) / 2 : 0)`.
A present point estimate equal to `0` is falsy in JavaScript and falls
through to the midpoint, as does an absent one. -/
def handleMintAmount (verified_impact : Option VerifiedImpact) : ℚ :=
  match verified_impact with
  | none => 0
  | some v =>
    match v.point_estimate_tonnes_co2e with
    | some pe =>
      if pe = 0 then (v.min_tonnes_co2e + v.max_tonnes_co2e) / 2 else pe
    | none => (v.min_tonnes_co2e + v.max_tonnes_co2e) / 2

/-- The verdict values the declared `AIConsistencyResult` type admits. -/
inductive AIVerdict where
  | strongly_supports
  | partially_supports
  | contradicts
deriving DecidableEq, Repr

/-- The runtime string value each declared verdict carries. -/
def AIVerdict.text : AIVerdict → String
  | .strongly_supports => "strongly_supports"
  | .partially_supports => "partially_supports"
  | .contradicts => "contradicts"

/-- The label of `AIVerdictCard.getVerdictLabel`, switching on the verdict string. -/
def getVerdictLabel (verdict : String) : String :=
  if verdict = "consistent" then "AI Consistent"
  else if verdict = "inconsistent" then "AI Inconsistent"
  else "Uncertain"

/-- The badge variant of `AIVerdictCard.getVerdictColor`. -/
def getVerdictColor (verdict : String) : String :=
  if verdict = "consistent" then "success"
  else if verdict = "inconsistent" then "destructive"
  else "warning"

/-- The icon component `AIVerdictCard.getVerdictIcon` renders. -/
def getVerdictIcon (verdict : String) : String :=
  if verdict = "consistent" then "CheckCircle"
  else if verdict = "inconsistent" then "XCircle"
  else "AlertTriangle"

/-- The class of the `AI:` badge in the `ClaimDetail` header. -/
def aiBadgeClass (verdict : String) : String :=
  if verdict = "consistent" then "bg-emerald-100 text-emerald-800"
  else if verdict = "inconsistent" then "bg-red-100 text-red-800"
  else "bg-yellow-100 text-yellow-800"

/-- Display status of one timeline stage in `ClaimTimeline`. -/
inductive StageStatus where
  | completed
  | active
  | pending
deriving DecidableEq, Repr

open ClaimStatus in
/-- The `status` fields of `ClaimTimeline.timelineEvents` in render order:
the submitted, AI-analysis, authority-review and community-review events,
plus the minted event that is pushed only when the claim is `minted`.
The `.includes(claim.status)` membership tests become disjunctions. -/
def timelineStatuses (s : ClaimStatus) : List StageStatus :=
  [StageStatus.completed,
   if s = ai_analyzed ∨ s = ai_verified ∨ s = verified ∨ s = authority_reviewed ∨
       s = community_reviewed ∨ s = approved ∨ s = minted then .completed
   else if s = submitted then .active
   else .pending,
   if s = authority_reviewed ∨ s = community_reviewed ∨ s = approved ∨ s = minted then
     .completed
   else if s = ai_analyzed ∨ s = ai_verified ∨ s = verified then .active
   else .pending,
   if s = community_reviewed ∨ s = approved ∨ s = minted then .completed
   else if s = authority_reviewed then .active
   else .pending] ++
  (if s = minted then [StageStatus.completed] else [])

/-- The decision values of a review. -/
inductive ReviewDecision where
  | approve
  | reject
deriving DecidableEq, Repr

/-- A `ReviewSubmission` as both dashboards build it. -/
structure ReviewSubmission where
  claim_id : Nat
  reviewer_id : String
  decision : ReviewDecision
  confidence_score : Option ℚ
  positives : List String
  concerns : List String
  notes : Option String
deriving DecidableEq, Repr

/-- The whitespace characters `String.prototype.trim` strips. -/
def isJsWhitespace (c : Char) : Bool :=
  c = ' ' ∨ c = '\t' ∨ c = '\n' ∨ c = '\r'

/-- JavaScript `String.prototype.trim`, modelled on the character list:
whitespace is stripped from both ends. -/
def jsTrim (s : String) : String :=
  String.mk (((s.data.dropWhile isJsWhitespace).reverse.dropWhile isJsWhitespace).reverse)

/-- Truthiness of `reviewData.notes?.trim()`: the notes are present and
trim to a non-empty string. -/
def hasNonEmptyNotes (rd : ReviewSubmission) : Bool :=
  match rd.notes with
  | none => false
  | some n => ¬ (jsTrim n = "")

/-- Translation of `AuthorityDashboard.handleReview`: yields the submission passed to
`reviewApi.submitAuthorityReview`, or `none` when the early-return guard
`!selectedClaim || !reviewData.notes?.trim()` fires. -/
def handleReview (selectedClaim : Option Claim) (reviewData : ReviewSubmission)
    (decision : ReviewDecision) : Option ReviewSubmission :=
  match selectedClaim with
  | none => none
  | some claim =>
    if hasNonEmptyNotes reviewData then
      some { reviewData with claim_id := claim.id, decision := decision }
    else none

/-- Translation of `CommunityReview.handleSubmitReview`: same guard, submission passed to
`reviewApi.submitCommunityReview`. -/
def handleSubmitReview (selectedClaim : Option Claim) (reviewData : ReviewSubmission)
    (decision : ReviewDecision) : Option ReviewSubmission :=
  match selectedClaim with
  | none => none
  | some claim =>
    if hasNonEmptyNotes reviewData then
      some { reviewData with claim_id := claim.id, decision := decision }
    else none

/-- The `disabled` condition of the approve/reject buttons in both review
panels: `!reviewData.notes?.trim() || submitting`. -/
def reviewButtonsDisabled (reviewData : ReviewSubmission) (submitting : Bool) : Bool :=
  !hasNonEmptyNotes reviewData || submitting

/-- Result of an awaited API call. -/
inductive ApiResult (α : Type) where
  | ok (value : α)
  | err (msg : String)
deriving DecidableEq, Repr

/-- The observable outcome of `SubmitClaim.handleSubmit`. -/
structure SubmitOutcome where
  navigatedTo : Option Nat
  submitError : Option String
  uploadErrorLogged : Bool
deriving DecidableEq, Repr

/-- Translation of `SubmitClaim.handleSubmit`: the guard re-runs `validateStep(4)` and
requires a location or geometry; then the claim is created; a failing
`uploadEvidence` call is caught inside its own try/catch, logged and
ignored; the flow navigates to `/claim/{id}` whenever creation succeeded,
and on creation failure it stores the message in `errors.submit` and does
not navigate. -/
def handleSubmit (est : CarbonImpactEstimate) (date : String) (hasGeometry : Bool)
    (submitResult : ApiResult Claim) (evidenceFiles : List Nat)
    (uploadResult : ApiResult Unit) : Option SubmitOutcome :=
  if !(validateStep4 est date) || !hasGeometry then none
  else some <|
    match submitResult with
    | .err msg =>
      { navigatedTo := none, submitError := some msg, uploadErrorLogged := false }
    | .ok claim =>
      { navigatedTo := some claim.id
        submitError := none
        uploadErrorLogged :=
          !evidenceFiles.isEmpty &&
            (match uploadResult with | .err _ => true | .ok _ => false) }

/-- The stop list shared by both `setInterval` callbacks in `ClaimDetail`:
fetching any of these statuses clears the interval. -/
def pollStopStatus (s : ClaimStatus) : Bool :=
  s = .ai_verified ∨ s = .ai_rejected ∨ s = .ai_analyzed ∨ s = .authority_reviewed ∨
    s = .rejected ∨ s = .approved ∨ s = .minted

/-- The outcome of one `getPublicClaim` call inside a polling tick. -/
inductive FetchResult where
  | ok (status : ClaimStatus)
  | fetchError
deriving DecidableEq, Repr

/-- One tick of either polling callback in `ClaimDetail`: `true` when the
interval stays alive, `false` when it is cleared (a fetched stop status,
or a fetch error, which also stops the polling). -/
def pollTick : FetchResult → Bool
  | .fetchError => false
  | .ok s => !(pollStopStatus s)

/-- Whether a polling timer is still alive after processing a sequence of
fetch results. -/
def timerActiveAfter (ticks : List FetchResult) : Bool :=
  ticks.all pollTick

/-- The add-positive / add-concern click handlers of both review panels:
`[...(prev.positives || []), '']`. -/
def addReviewPoint (points : List String) : List String :=
  points ++ [""]

/-- The change handler of the entry at `index` in either list: copy the
list and assign `newPoints[index] = value`. -/
def editReviewPoint (points : List String) (index : Nat) (value : String) :
    List String :=
  points.set index value

/-- One entry of the `EvidenceUploader` state: the randomly generated id
together with the wrapped `File` object (files numbered abstractly). -/
structure EvidenceFile where
  id : Nat
  file : Nat
deriving DecidableEq, Repr

/-- JavaScript `Array.prototype.slice(0, stop)`: a negative `stop` counts
from the end of the array, clamped at `0`. -/
def jsSliceTo {α : Type} (l : List α) (stop : Int) : List α :=
  l.take (if stop < 0 then ((l.length : Int) + stop).toNat else stop.toNat)

/-- Translation of `EvidenceUploader.handleFiles`: takes at most
`remainingSlots = maxFiles - files.length` entries of the batch, appends
them, and returns the new state with the `onFilesChange` payload
`updatedFiles.map(f => f.file)`. -/
def handleFiles (maxFiles : Nat) (files : List EvidenceFile)
    (newFiles : List EvidenceFile) : List EvidenceFile × List Nat :=
  let remainingSlots : Int := (maxFiles : Int) - files.length
  let filesToAdd := jsSliceTo newFiles remainingSlots
  let updatedFiles := files ++ filesToAdd
  (updatedFiles, updatedFiles.map (·.file))

/-- Translation of `EvidenceUploader.removeFile`: drops the entry with the given id and
reports the remaining files through `onFilesChange`. -/
def removeFile (files : List EvidenceFile) (id : Nat) :
    List EvidenceFile × List Nat :=
  let updatedFiles := files.filter fun f => f.id ≠ id
  (updatedFiles, updatedFiles.map (·.file))

/-- One user interaction with the uploader. -/
inductive UploaderOp where
  | add (batch : List EvidenceFile)
  | remove (id : Nat)

/-- The state transition of one interaction. -/
def applyUploaderOp (maxFiles : Nat) (files : List EvidenceFile) :
    UploaderOp → List EvidenceFile
  | .add batch => (handleFiles maxFiles files batch).1
  | .remove id => (removeFile files id).1

/-- The uploader state after a sequence of interactions, starting from the
initial empty list. -/
def runUploader (maxFiles : Nat) (ops : List UploaderOp) : List EvidenceFile :=
  ops.foldl (applyUploaderOp maxFiles) []

/-- Each interaction keeps the file count within `maxFiles`. -/
theorem applyUploaderOp_length_le (maxFiles : Nat) (files : List EvidenceFile)
    (op : UploaderOp) (h : files.length ≤ maxFiles) :
    (applyUploaderOp maxFiles files op).length ≤ maxFiles := by
  cases op with
  | add batch =>
    simp only [applyUploaderOp, handleFiles, jsSliceTo]
    have hge : ¬ ((maxFiles : Int) - (files.length : Int) < 0) := by omega
    rw [if_neg hge]
    have htn : ((maxFiles : Int) - (files.length : Int)).toNat =
        maxFiles - files.length := by omega
    rw [htn]
    simp only [List.length_append, List.length_take]
    omega
  | remove id =>
    simp only [applyUploaderOp, removeFile]
    have := List.length_filter_le (fun f => f.id ≠ id) files
    omega

/-- C1 counterexample: at the range `min = max = 5` the spec invariant
`max ≥ min > 0` holds, yet `validateStep(4)` fails (it requires
`max > min` strictly), so the claimed equivalence is false. -/
theorem validateStep4_not_spec_equivalent :
    ¬ (∀ (est : CarbonImpactEstimate) (date : String), date ≠ "" →
        (validateStep4 est date = true ↔ specCarbonRangeInvariant est)) := by
  intro h
  have h5 : validateStep4 ⟨5, 5⟩ "2024-01-01" = true :=
    (h ⟨5, 5⟩ "2024-01-01" (by decide)).mpr (by exact ⟨by norm_num, le_refl _⟩)
  exact absurd h5 (by decide)

/-- C1 amended: given a non-empty start date, `validateStep(4)` accepts a
carbon range exactly when `0 < min` and `min < max` strictly. -/
theorem validateStep4_iff_strict (est : CarbonImpactEstimate) (date : String)
    (hdate : date ≠ "") :
    validateStep4 est date = true ↔
      0 < est.min_tonnes_co2e ∧ est.min_tonnes_co2e < est.max_tonnes_co2e := by
  simp only [validateStep4, validateStep4Errors, decide_eq_true_eq]
  split_ifs with h1 h2 h3 <;> simp_all

/-- C1 witness: the amended equivalence evaluated at the concrete range
`(1, 2)` with a non-empty date. -/
theorem validateStep4_iff_strict_witness :
    validateStep4 ⟨1, 2⟩ "2024-01-01" = true := by
  exact (validateStep4_iff_strict ⟨1, 2⟩ "2024-01-01" (by decide)).mpr
    ⟨by norm_num, by norm_num⟩

/-- C2: the authority dashboard offers exactly the claims with status in
`{ai_verified, ai_analyzed, verified}`, the community dashboard exactly the
`authority_reviewed` ones, and an `ai_rejected` claim is never offered for
authority review. -/
theorem dashboards_enforce_stage_preconditions (l : List Claim) (c : Claim) :
    (c ∈ authorityPendingClaims l ↔
      c ∈ l ∧ (c.status = .ai_verified ∨ c.status = .ai_analyzed ∨ c.status = .verified)) ∧
    (c ∈ communityReviewableClaims l ↔ c ∈ l ∧ c.status = .authority_reviewed) ∧
    (c.status = .ai_rejected → c ∉ authorityPendingClaims l) := by
  refine ⟨?_, ?_, ?_⟩
  · simp [authorityPendingClaims, List.mem_filter]
  · simp [communityReviewableClaims, List.mem_filter]
  · intro hrej hmem
    rw [authorityPendingClaims, List.mem_filter] at hmem
    rcases hmem with ⟨-, hp⟩
    rw [hrej] at hp
    simp at hp

/-- C2 witness: a concrete `ai_rejected` claim is excluded from the
authority dashboard list. -/
theorem dashboards_enforce_stage_preconditions_witness :
    (⟨1, .ai_rejected⟩ : Claim) ∉ authorityPendingClaims [⟨1, .ai_rejected⟩] :=
  (dashboards_enforce_stage_preconditions [⟨1, .ai_rejected⟩] ⟨1, .ai_rejected⟩).2.2 rfl

/-- C3 counterexample: for the degenerate verified range `min = max = 0`
with no point estimate (point estimate absent and `min ≤ max` hold), the
mint amount is the midpoint `0`, violating `0 < amount`. -/
theorem handleMint_amount_not_always_positive :
    ¬ (∀ v : VerifiedImpact,
        (v.point_estimate_tonnes_co2e = none ∨
          ∃ pe, v.point_estimate_tonnes_co2e = some pe ∧
            v.min_tonnes_co2e ≤ pe ∧ pe ≤ v.max_tonnes_co2e) →
        v.min_tonnes_co2e ≤ v.max_tonnes_co2e →
        0 < handleMintAmount (some v) ∧
          handleMintAmount (some v) ≤ v.max_tonnes_co2e) := by
  intro h
  have h0 := h ⟨0, 0, none⟩ (Or.inl rfl) (le_refl _)
  have hz : handleMintAmount (some ⟨0, 0, none⟩) = 0 := by
    norm_num [handleMintAmount]
  rw [hz] at h0
  exact absurd h0.1 (by norm_num)

/-- C3 amended: whenever the verified range satisfies `0 < min ≤ max` and
the point estimate is absent or lies inside `[min, max]`, the amount
`handleMint` submits satisfies `0 < amount ≤ max`. -/
theorem handleMint_amount_bounds (v : VerifiedImpact)
    (hmin : 0 < v.min_tonnes_co2e)
    (hle : v.min_tonnes_co2e ≤ v.max_tonnes_co2e)
    (hpe : v.point_estimate_tonnes_co2e = none ∨
      ∃ pe, v.point_estimate_tonnes_co2e = some pe ∧
        v.min_tonnes_co2e ≤ pe ∧ pe ≤ v.max_tonnes_co2e) :
    0 < handleMintAmount (some v) ∧
      handleMintAmount (some v) ≤ v.max_tonnes_co2e := by
  rcases hpe with hnone | ⟨pe, hsome, hlo, hhi⟩
  · have hval : handleMintAmount (some v) =
        (v.min_tonnes_co2e + v.max_tonnes_co2e) / 2 := by
      simp [handleMintAmount, hnone]
    rw [hval]
    constructor <;> linarith
  · by_cases h0 : pe = 0
    · exfalso
      rw [h0] at hlo
      linarith
    · have hval : handleMintAmount (some v) = pe := by
        simp [handleMintAmount, hsome, h0]
      rw [hval]
      constructor <;> linarith

/-- C3 witness: the amended bounds at the concrete verified range
`(2, 4)` with no point estimate; the submitted amount is the midpoint `3`. -/
theorem handleMint_amount_bounds_witness :
    0 < handleMintAmount (some ⟨2, 4, none⟩) ∧
      handleMintAmount (some ⟨2, 4, none⟩) ≤ (4 : ℚ) :=
  handleMint_amount_bounds ⟨2, 4, none⟩ (by norm_num) (by norm_num) (Or.inl rfl)

/-- C4: for every verdict value of the declared `AIConsistencyResult` type,
the `consistent` and `inconsistent` switch branches are unreachable:
`getVerdictLabel` answers `Uncertain`, `getVerdictColor` answers `warning`,
the icon is the yellow `AlertTriangle`, and the `ClaimDetail` header badge
takes the yellow default class, so the card never distinguishes the three
verdict categories. -/
theorem aiVerdictCard_always_uncertain (v : AIVerdict) :
    getVerdictLabel v.text = "Uncertain" ∧
    getVerdictColor v.text = "warning" ∧
    getVerdictIcon v.text = "AlertTriangle" ∧
    aiBadgeClass v.text = "bg-yellow-100 text-yellow-800" := by
  cases v <;> refine ⟨rfl, rfl, rfl, rfl⟩

/-- C5: for every claim status the rendered timeline is monotone: whenever
a stage is completed, every earlier stage is completed too (so no later
stage can be completed while an earlier one is pending), and at most one
stage is active. -/
theorem claimTimeline_monotone (s : ClaimStatus) :
    List.Pairwise
      (fun a b => b = StageStatus.completed → a = StageStatus.completed)
      (timelineStatuses s) ∧
    (timelineStatuses s).countP (fun a => a = StageStatus.active) ≤ 1 := by
  cases s <;> exact ⟨by decide, by decide⟩

/-- C6: neither review handler ever issues a request with empty or
whitespace-only notes, for either decision; with blank notes the handlers
return early and the approve/reject buttons are disabled. -/
theorem reviews_require_nonempty_notes (sc : Option Claim)
    (rd : ReviewSubmission) (d : ReviewDecision) (sub : ReviewSubmission) :
    (handleReview sc rd d = some sub → hasNonEmptyNotes sub = true) ∧
    (handleSubmitReview sc rd d = some sub → hasNonEmptyNotes sub = true) ∧
    (hasNonEmptyNotes rd = false →
      ∀ submitting : Bool, reviewButtonsDisabled rd submitting = true) := by
  refine ⟨?_, ?_, ?_⟩
  · intro h
    rcases sc with _ | c
    · simp [handleReview] at h
    · simp only [handleReview] at h
      by_cases hn : hasNonEmptyNotes rd = true
      · rw [if_pos hn] at h
        injection h with h
        subst h
        simpa [hasNonEmptyNotes] using hn
      · rw [if_neg hn] at h
        exact absurd h (by simp)
  · intro h
    rcases sc with _ | c
    · simp [handleSubmitReview] at h
    · simp only [handleSubmitReview] at h
      by_cases hn : hasNonEmptyNotes rd = true
      · rw [if_pos hn] at h
        injection h with h
        subst h
        simpa [hasNonEmptyNotes] using hn
      · rw [if_neg hn] at h
        exact absurd h (by simp)
  · intro hn submitting
    simp [reviewButtonsDisabled, hn]

/-- C6 witness: a concrete authority approval with notes `"looks good"`
passes the guard and indeed carries non-empty notes, and whitespace-only
notes disable the buttons. -/
theorem reviews_require_nonempty_notes_witness :
    hasNonEmptyNotes
        ⟨7, "Authority Reviewer #001", .approve, none, [""], [""], some "looks good"⟩ =
      true ∧
    reviewButtonsDisabled
        ⟨0, "Community Member", .approve, none, [""], [""], some " "⟩ false =
      true := by
  constructor
  · exact (reviews_require_nonempty_notes (some ⟨7, .ai_verified⟩)
      ⟨0, "Authority Reviewer #001", .approve, none, [""], [""], some "looks good"⟩
      .approve
      ⟨7, "Authority Reviewer #001", .approve, none, [""], [""], some "looks good"⟩).1
      (by decide)
  · exact (reviews_require_nonempty_notes none
      ⟨0, "Community Member", .approve, none, [""], [""], some " "⟩
      .approve
      ⟨0, "Community Member", .approve, none, [""], [""], some " "⟩).2.2
      (by decide) false

/-- C7: once claim creation succeeded, every upload outcome (including a
failing one) still leads to navigation to the created claim with no form
error; if creation itself fails, there is no navigation and the message is
surfaced in `errors.submit`. -/
theorem handleSubmit_upload_failure_does_not_abort (est : CarbonImpactEstimate)
    (date : String) (hasGeometry : Bool) (c : Claim) (msg : String)
    (files : List Nat) (uploadResult : ApiResult Unit) (out : SubmitOutcome) :
    (handleSubmit est date hasGeometry (.ok c) files uploadResult = some out →
      out.navigatedTo = some c.id ∧ out.submitError = none) ∧
    (handleSubmit est date hasGeometry (.err msg) files uploadResult = some out →
      out.navigatedTo = none ∧ out.submitError = some msg) := by
  constructor
  · intro h
    rw [handleSubmit.eq_def] at h
    split at h
    · exact absurd h (by simp)
    · injection h with h
      subst h
      exact ⟨rfl, rfl⟩
  · intro h
    rw [handleSubmit.eq_def] at h
    split at h
    · exact absurd h (by simp)
    · injection h with h
      subst h
      exact ⟨rfl, rfl⟩

/-- C7 witness: with a valid step-4 payload and geometry, a successful
creation of claim `3` followed by a failing evidence upload still
navigates to claim `3` with no form error; a failed creation surfaces the
message and does not navigate. -/
theorem handleSubmit_upload_failure_witness :
    ((⟨some 3, none, true⟩ : SubmitOutcome).navigatedTo = some 3 ∧
      (⟨some 3, none, true⟩ : SubmitOutcome).submitError = none) ∧
    ((⟨none, some "boom", false⟩ : SubmitOutcome).navigatedTo = none ∧
      (⟨none, some "boom", false⟩ : SubmitOutcome).submitError = some "boom") := by
  constructor
  · exact (handleSubmit_upload_failure_does_not_abort ⟨1, 2⟩ "2024-01-01" true
      ⟨3, .submitted⟩ "boom" [5] (.err "upload failed") ⟨some 3, none, true⟩).1
      (by decide)
  · exact (handleSubmit_upload_failure_does_not_abort ⟨1, 2⟩ "2024-01-01" true
      ⟨3, .submitted⟩ "boom" [5] (.err "upload failed") ⟨none, some "boom", false⟩).2
      (by decide)

/-- C8 counterexample: a fetched status of `community_reviewed` keeps the
polling interval alive although it is neither `ai_analysis_pending` nor
`ai_analysis_in_progress`, so the timers do not continue only while the
status is pending or in progress. -/
theorem claimDetail_polling_not_only_while_pending :
    ¬ (∀ r : FetchResult, pollTick r = true →
        r = .ok .ai_analysis_pending ∨ r = .ok .ai_analysis_in_progress) := by
  intro h
  rcases h (.ok .community_reviewed) (by decide) with hc | hc <;> exact absurd hc (by decide)

/-- C8 amended: each polling timer tick keeps the interval alive exactly
when the fetch succeeded with a status outside the stop list
`{ai_verified, ai_rejected, ai_analyzed, authority_reviewed, rejected,
approved, minted}` (so fetched `submitted`, `verified` or
`community_reviewed` also keep it running), a fetch error clears it, and
once any processed fetch result clears the timer it is no longer active,
so a claim that reaches a stop status is never polled indefinitely. -/
theorem claimDetail_polling_stops_on_settled (ticks : List FetchResult)
    (r : FetchResult) :
    (∀ s : ClaimStatus, pollTick (.ok s) = false ↔ pollStopStatus s = true) ∧
    pollTick .fetchError = false ∧
    pollTick (.ok .submitted) = true ∧
    pollTick (.ok .verified) = true ∧
    pollTick (.ok .community_reviewed) = true ∧
    (r ∈ ticks → pollTick r = false → timerActiveAfter ticks = false) := by
  refine ⟨fun s => ?_, rfl, rfl, rfl, rfl, fun hmem hstop => ?_⟩
  · cases hp : pollStopStatus s <;> simp [pollTick, hp]
  · rw [timerActiveAfter, List.all_eq_false]
    exact ⟨r, hmem, by simp [hstop]⟩

/-- C8 witness: a polling run that fetches `ai_analysis_in_progress` and
then the settled status `ai_verified` ends with the timer cleared. -/
theorem claimDetail_polling_stops_witness :
    timerActiveAfter [.ok .ai_analysis_in_progress, .ok .ai_verified] = false :=
  (claimDetail_polling_stops_on_settled
      [.ok .ai_analysis_in_progress, .ok .ai_verified] (.ok .ai_verified)).2.2.2.2.2
    (by decide) (by decide)

/-- C9: the positives/concerns editors are append-only ordered sequences
with no uniqueness constraint: adding appends exactly one empty entry at
the end and keeps every existing entry in place, editing changes only the
entry at that index, and the submitted review carries the lists through
unchanged, duplicates included. -/
theorem review_point_lists_append_only (l : List String) (i j : Nat) (v : String)
    (sc : Option Claim) (rd : ReviewSubmission) (d : ReviewDecision)
    (sub : ReviewSubmission) :
    addReviewPoint l = l ++ [""] ∧
    (addReviewPoint l).length = l.length + 1 ∧
    (addReviewPoint l).take l.length = l ∧
    (editReviewPoint l i v).length = l.length ∧
    (j ≠ i → (editReviewPoint l i v)[j]? = l[j]?) ∧
    (i < l.length → (editReviewPoint l i v)[i]? = some v) ∧
    (handleReview sc rd d = some sub →
      sub.positives = rd.positives ∧ sub.concerns = rd.concerns) := by
  refine ⟨rfl, by simp [addReviewPoint], List.take_left _ _,
    by simp [editReviewPoint], fun hj => ?_, fun hi => ?_, fun h => ?_⟩
  · exact List.getElem?_set_ne (fun he => hj he.symm)
  · exact List.getElem?_set_self hi
  · rcases sc with _ | c
    · simp [handleReview] at h
    · simp only [handleReview] at h
      by_cases hn : hasNonEmptyNotes rd = true
      · rw [if_pos hn] at h
        injection h with h
        subst h
        exact ⟨rfl, rfl⟩
      · rw [if_neg hn] at h
        exact absurd h (by simp)

/-- C9 witness: editing index `0` of `["a", "b"]` leaves index `1` alone
and sets index `0`, and a submission whose positives list holds the
duplicate entries `["dup", "dup"]` is passed through unchanged. -/
theorem review_point_lists_append_only_witness :
    (editReviewPoint ["a", "b"] 0 "c")[1]? = (["a", "b"] : List String)[1]? ∧
    (editReviewPoint ["a", "b"] 0 "c")[0]? = some "c" ∧
    ((⟨4, "r", .approve, none, ["dup", "dup"], [""], some "n"⟩ :
        ReviewSubmission).positives = ["dup", "dup"] ∧
      (⟨4, "r", .approve, none, ["dup", "dup"], [""], some "n"⟩ :
        ReviewSubmission).concerns = [""]) := by
  refine ⟨?_, ?_, ?_⟩
  · exact (review_point_lists_append_only ["a", "b"] 0 1 "c" none
      ⟨0, "", .approve, none, [], [], none⟩ .approve
      ⟨0, "", .approve, none, [], [], none⟩).2.2.2.2.1 (by decide)
  · exact (review_point_lists_append_only ["a", "b"] 0 1 "c" none
      ⟨0, "", .approve, none, [], [], none⟩ .reject
      ⟨0, "", .approve, none, [], [], none⟩).2.2.2.2.2.1 (by decide)
  · exact (review_point_lists_append_only [] 0 0 "" (some ⟨4, .authority_reviewed⟩)
      ⟨0, "r", .approve, none, ["dup", "dup"], [""], some "n"⟩ .approve
      ⟨4, "r", .approve, none, ["dup", "dup"], [""], some "n"⟩).2.2.2.2.2.2 (by decide)

/-- C10: starting from the empty list, any sequence of `handleFiles` and
`removeFile` interactions keeps at most `maxFiles` files; `handleFiles`
keeps the existing files as an unchanged prefix, `removeFile` keeps the
survivors in their relative order, and every `onFilesChange` payload is
exactly the `File` objects of the resulting list in order. -/
theorem evidenceUploader_invariants (maxFiles : Nat) (ops : List UploaderOp)
    (files batch : List EvidenceFile) (id : Nat) :
    (runUploader maxFiles ops).length ≤ maxFiles ∧
    (handleFiles maxFiles files batch).1.take files.length = files ∧
    List.Sublist ((removeFile files id).1) files ∧
    (handleFiles maxFiles files batch).2 =
      (handleFiles maxFiles files batch).1.map (·.file) ∧
    (removeFile files id).2 = (removeFile files id).1.map (·.file) := by
  refine ⟨?_, List.take_left _ _, List.filter_sublist _, rfl, rfl⟩
  rw [runUploader]
  have haux : ∀ (os : List UploaderOp) (fs : List EvidenceFile),
      fs.length ≤ maxFiles →
      (os.foldl (applyUploaderOp maxFiles) fs).length ≤ maxFiles := by
    intro os
    induction os with
    | nil => exact fun fs h => h
    | cons o os ih =>
      intro fs h
      exact ih _ (applyUploaderOp_length_le maxFiles fs o h)
  exact haux ops [] (Nat.zero_le _)

end CarbonChain
